import Mathlib

/-!
Verification of the job-scheduler core: a shallow embedding of the
repository's Lambda handlers (createJob, getJob, getJobs, deleteJob and the
job executor) over explicit table states, with theorems checking the design
specification's claims about them.

Conventions of the embedding:
* DynamoDB tables become association lists keyed by id; `PutCommand`
  overwrites by key, `DeleteCommand` erases by key, `GetCommand` looks up.
* JavaScript truthiness on optional strings: `undefined`/`null`/`""` are
  falsy, every other string truthy.
* `Date.now()` values are passed in explicitly (one parameter per call site,
  in program order).
* Calls into EventBridge / Lambda that can throw are driven by explicit
  boolean (or three-valued) oracles; a failing call performs no mutation and
  control transfers as the surrounding `try`/`catch` dictates.
* `executeJobLogic` (the pluggable execution interface) is abstracted by the
  pair `execError : Option String` (`none` = returned normally) and
  `execOutputVal : String` (the value returned on success), mirroring the
  executor's `executionError` / `result` variables.
-/

/-- JavaScript truthiness for an optional string field: `undefined` and the
empty string are falsy. -/
def truthy : Option String → Bool
  | none => false
  | some s => !(s == "")

/-- The string value of an optional field, `""` for `undefined`. -/
def tval (o : Option String) : String := o.getD ""

/-- The JS idiom `x || null` applied to an optional string field. -/
def orNull (o : Option String) : Option String :=
  if truthy o then o else none

/-- A DynamoDB table: an association list keyed by a string id. -/
abbrev Table (α : Type) := List (String × α)

/-- `GetCommand`: look up an item by key. -/
def getItem {α : Type} (k : String) : Table α → Option α
  | [] => none
  | (k₀, v) :: t => if k₀ = k then some v else getItem k t

/-- Remove every binding of a key (keys are unique in practice). -/
def eraseItem {α : Type} (k : String) : Table α → Table α
  | [] => []
  | (k₀, v) :: t => if k₀ = k then eraseItem k t else (k₀, v) :: eraseItem k t

/-- `PutCommand`: overwrite the item stored under a key. -/
def putItem {α : Type} (k : String) (v : α) (t : Table α) : Table α :=
  (k, v) :: eraseItem k t

/-- Job types accepted by `createJob` (`immediate`, `once`, `cron`). -/
inductive JobType
  | immediate
  | once
  | cron
deriving DecidableEq

/-- Job lifecycle statuses stored in the jobs table. -/
inductive JobStatus
  | scheduled
  | executing
  | completed
  | failed
deriving DecidableEq

/-- Invocation statuses written by the executor. -/
inductive InvStatus
  | running
  | completed
  | failed
deriving DecidableEq

/-- A row of the jobs table, as written by `createJob.js` and updated by the
executor. -/
structure Job where
  jobId : String
  name : String
  description : String
  type : JobType
  scheduleExpression : Option String
  executeAt : Option String
  payload : String
  status : JobStatus
  createdAt : Nat
  updatedAt : Nat
  invocationCount : Nat
  lastExecutedAt : Option Nat
  ruleName : Option String
deriving DecidableEq

/-- A row of the invocations table, as written by the executor
(`part_001`): created with status `running`, then overwritten once with the
completion fields. -/
structure Invocation where
  invocationId : String
  jobId : String
  timestamp : Nat
  status : InvStatus
  startedAt : Nat
  input : String
  completedAt : Option Nat
  duration : Option Nat
  output : Option String
  error : Option String
  errorStack : Option String
deriving DecidableEq

/-- The EventBridge/Lambda state the handlers mutate: rule names, rule
targets `(ruleName, targetId)`, and Lambda permission statement ids. -/
structure RuleEngine where
  rules : List String
  targets : List (String × String)
  permissions : List String
deriving DecidableEq

/-- `RemoveTargetsCommand {Rule, Ids}`: drop the listed target ids of a rule. -/
def removeTargets (rn : String) (ids : List String) (re : RuleEngine) : RuleEngine :=
  { re with targets := re.targets.filter (fun p => !(p.1 == rn && ids.contains p.2)) }

/-- `DeleteRuleCommand {Name}`: drop the rule entry. -/
def deleteRule (rn : String) (re : RuleEngine) : RuleEngine :=
  { re with rules := re.rules.filter (fun r => !(r == rn)) }

/-- `RemovePermissionCommand {StatementId}`: drop the permission statement. -/
def removePermission (sid : String) (re : RuleEngine) : RuleEngine :=
  { re with permissions := re.permissions.filter (fun s => !(s == sid)) }

/-- The event the executor receives: `{ jobId, payload }`. -/
structure DispatchEvent where
  jobId : Option String
  payload : Option String
deriving DecidableEq

/-- The non-deterministic inputs of one executor run, in program order:
`timestamp` (`Date.now()` at entry, line 17), `startTime` (line 52),
`endTime` (line 83), the outcome of `executeJobLogic`, and oracles for the
three clean-up calls on a fired `once` job. -/
structure DispatchEnv where
  timestamp : Nat
  startTime : Nat
  endTime : Nat
  execError : Option String
  execOutputVal : String
  rtOk : Bool
  drOk : Bool
  rpOk : Bool
deriving DecidableEq

/-- The mutable state the executor touches. -/
structure DispatchState where
  jobs : Table Job
  invocations : Table Invocation
  ruleEngine : RuleEngine
deriving DecidableEq

/-- The executor's observable outcome: HTTP-style status code of the
returned object plus the final state. -/
structure DispatchResult where
  statusCode : Nat
  jobs : Table Job
  invocations : Table Invocation
  ruleEngine : RuleEngine
deriving DecidableEq

/-- Clean-up of a fired one-time job's rule (executor lines 139–167): an
outer `try` around `RemoveTargets` then `DeleteRule`, with an inner `try`
around `RemovePermission`; every failure is swallowed. A failing call
mutates nothing and aborts the rest of the outer `try`. -/
def cleanupOnceRule (env : DispatchEnv) (rn : String) (re : RuleEngine) : RuleEngine :=
  if env.rtOk then
    let re₁ := removeTargets rn ["1"] re
    if env.drOk then
      let re₂ := deleteRule rn re₁
      if env.rpOk then removePermission (rn ++ "-permission") re₂ else re₂
    else re₁
  else re

/-- The `running` invocation row the executor writes before calling the job
logic (lines 54–67). -/
def runningInvOf (env : DispatchEnv) (invocationId jid payload : String) : Invocation :=
  { invocationId := invocationId, jobId := jid, timestamp := env.timestamp,
    status := InvStatus.running, startedAt := env.startTime, input := payload,
    completedAt := none, duration := none, output := none, error := none,
    errorStack := none }

/-- The finalized invocation row (lines 83–103): completion fields set once,
`failed` with the error message or `completed` with the output. -/
def finalInvOf (env : DispatchEnv) (invocationId jid payload : String) : Invocation :=
  let base := runningInvOf env invocationId jid payload
  let dur := env.endTime - env.startTime
  match env.execError with
  | some msg =>
    { base with
        status := InvStatus.failed
        completedAt := some env.endTime
        duration := some dur
        error := some msg
        errorStack := some msg }
  | none =>
    { base with
        status := InvStatus.completed
        completedAt := some env.endTime
        duration := some dur
        output := some env.execOutputVal }

/-- The job status written after a dispatch (executor lines 114–122):
terminal by outcome for `immediate`/`once`, back to `scheduled` for `cron`. -/
def newStatusFor (ty : JobType) (execError : Option String) : JobStatus :=
  match ty with
  | JobType.immediate => if execError.isSome then JobStatus.failed else JobStatus.completed
  | JobType.once => if execError.isSome then JobStatus.failed else JobStatus.completed
  | JobType.cron => JobStatus.scheduled

/-- The job row after the executor's `UpdateCommand` (lines 108–135):
`invocationCount + 1`, `lastExecutedAt` and `updatedAt` both set to the
`timestamp` captured at handler entry, status per `newStatusFor`. -/
def updatedJobOf (env : DispatchEnv) (job : Job) : Job :=
  { job with
      invocationCount := job.invocationCount + 1
      lastExecutedAt := some env.timestamp
      updatedAt := env.timestamp
      status := newStatusFor job.type env.execError }

/-- The job executor handler (`part_001`). Parses the event, loads the job,
writes a `running` invocation, runs the job logic, finalizes the invocation,
updates the job row (count, timestamps, status by type/outcome), cleans up a
`once` job's rule, and returns 200/500 by execution outcome (400/404 on the
early exits). -/
def dispatchHandler (env : DispatchEnv) (invocationId : String)
    (st : DispatchState) (ev : DispatchEvent) : DispatchResult :=
  if truthy ev.jobId then
    let jid := tval ev.jobId
    let payload := if truthy ev.payload then tval ev.payload else "\x7b\x7d"
    match getItem jid st.jobs with
    | none => ⟨404, st.jobs, st.invocations, st.ruleEngine⟩
    | some job =>
      let invs₁ := putItem invocationId (runningInvOf env invocationId jid payload) st.invocations
      let invs₂ := putItem invocationId (finalInvOf env invocationId jid payload) invs₁
      let jobs₁ := putItem jid (updatedJobOf env job) st.jobs
      let re₁ :=
        if job.type = JobType.once ∧ truthy job.ruleName then
          cleanupOnceRule env (tval job.ruleName) st.ruleEngine
        else st.ruleEngine
      ⟨if env.execError.isSome then 500 else 200, jobs₁, invs₂, re₁⟩
  else ⟨400, st.jobs, st.invocations, st.ruleEngine⟩

theorem getItem_putItem_self {α : Type} (k : String) (v : α) (t : Table α) :
    getItem k (putItem k v t) = some v := by
  simp [putItem, getItem]

theorem getItem_eraseItem_self {α : Type} (k : String) (t : Table α) :
    getItem k (eraseItem k t) = none := by
  induction t with
  | nil => simp [eraseItem, getItem]
  | cons p t ih =>
    by_cases h : p.1 = k
    · simpa [eraseItem, h] using ih
    · simp [eraseItem, h, getItem, ih]

/-- C1: after a dispatch of a job present in the store, the job's status is
determined by its type and the execution outcome — `immediate` and `once`
become `completed` on success and `failed` when the job logic throws, `cron`
becomes `scheduled` either way — and `invocationCount` grows by exactly 1. -/
theorem dispatch_status_and_count (env : DispatchEnv) (invocationId jid : String)
    (st : DispatchState) (pl : Option String) (job : Job)
    (hjid : jid ≠ "") (hfound : getItem jid st.jobs = some job) :
    ∃ job₂ : Job,
      getItem jid (dispatchHandler env invocationId st ⟨some jid, pl⟩).jobs = some job₂
      ∧ job₂.invocationCount = job.invocationCount + 1
      ∧ job₂.status =
          (match job.type with
           | JobType.cron => JobStatus.scheduled
           | _ => if env.execError.isSome then JobStatus.failed else JobStatus.completed) := by
  refine ⟨updatedJobOf env job, ?_, rfl, ?_⟩
  · simp only [dispatchHandler, truthy, tval, Option.getD, hfound]
    simp [hjid, getItem_putItem_self]
  · cases htype : job.type <;>
      simp [updatedJobOf, newStatusFor, htype]

/-- A concrete cron job used to exercise the executor theorems. -/
def jobA : Job :=
  { jobId := "j1", name := "nightly", description := "", type := JobType.cron,
    scheduleExpression := some "rate(5 minutes)", executeAt := none, payload := "\x7b\x7d",
    status := JobStatus.scheduled, createdAt := 5, updatedAt := 5, invocationCount := 2,
    lastExecutedAt := none, ruleName := some "job-j1" }

/-- A concrete one-time job with a registered rule. -/
def jobB : Job :=
  { jobId := "j2", name := "oneshot", description := "", type := JobType.once,
    scheduleExpression := none, executeAt := some "2030-01-01T00:00:00Z", payload := "\x7b\x7d",
    status := JobStatus.scheduled, createdAt := 5, updatedAt := 5, invocationCount := 0,
    lastExecutedAt := none, ruleName := some "job-j2" }

/-- A concrete dispatcher state holding `jobA` and `jobB`. -/
def stA : DispatchState :=
  { jobs := [("j1", jobA), ("j2", jobB)], invocations := [],
    ruleEngine :=
      { rules := ["job-j1", "job-j2"],
        targets := [("job-j1", "1"), ("job-j2", "1")],
        permissions := ["job-j1-permission", "job-j2-permission"] } }

/-- A concrete successful run: entry at 100, execution 110–150. -/
def envA : DispatchEnv :=
  { timestamp := 100, startTime := 110, endTime := 150, execError := none,
    execOutputVal := "ok", rtOk := true, drOk := true, rpOk := true }

/-- Witness for `dispatch_status_and_count` at a concrete cron job. -/
theorem dispatch_status_and_count_witness :
    ("j1" : String) ≠ "" ∧ getItem "j1" stA.jobs = some jobA ∧
    ∃ job₂ : Job,
      getItem "j1" (dispatchHandler envA "i1" stA ⟨some "j1", none⟩).jobs = some job₂
      ∧ job₂.invocationCount = jobA.invocationCount + 1
      ∧ job₂.status =
          (match jobA.type with
           | JobType.cron => JobStatus.scheduled
           | _ => if envA.execError.isSome then JobStatus.failed else JobStatus.completed) :=
  ⟨by decide, by decide,
    dispatch_status_and_count envA "i1" "j1" stA none jobA (by decide) (by decide)⟩

/-- C2 is false on the code: the executor's `UpdateCommand` writes
`lastExecutedAt` and `updatedAt` from the `timestamp` taken at handler entry
(line 17), while the invocation's `completedAt` is the `Date.now()` taken
after execution (line 83). With entry at 100 and completion at 150 the two
differ. -/
theorem dispatch_timestamps_counterexample :
    (getItem "i1" (dispatchHandler envA "i1" stA ⟨some "j1", none⟩).invocations).map
        Invocation.completedAt = some (some 150)
    ∧ (getItem "j1" (dispatchHandler envA "i1" stA ⟨some "j1", none⟩).jobs).map
        Job.lastExecutedAt = some (some 100)
    ∧ (getItem "j1" (dispatchHandler envA "i1" stA ⟨some "j1", none⟩).jobs).map
        Job.updatedAt = some 100
    ∧ some (100 : Nat) ≠ some (150 : Nat) := by
  refine ⟨?_, ?_, ?_, by decide⟩ <;> decide

/-- C2 amended: after the job-metadata update, `lastExecutedAt` and
`updatedAt` both equal the `Date.now()` captured at handler entry (the
event's processing timestamp), not the invocation's `completedAt`; the
finalized invocation's `completedAt` is the separate post-execution clock
reading. -/
theorem dispatch_timestamps_amended (env : DispatchEnv) (invocationId jid : String)
    (st : DispatchState) (pl : Option String) (job : Job)
    (hjid : jid ≠ "") (hfound : getItem jid st.jobs = some job) :
    ∃ (job₂ : Job) (inv₂ : Invocation),
      getItem jid (dispatchHandler env invocationId st ⟨some jid, pl⟩).jobs = some job₂
      ∧ getItem invocationId (dispatchHandler env invocationId st ⟨some jid, pl⟩).invocations
          = some inv₂
      ∧ job₂.lastExecutedAt = some env.timestamp
      ∧ job₂.updatedAt = env.timestamp
      ∧ inv₂.completedAt = some env.endTime := by
  refine ⟨updatedJobOf env job,
    finalInvOf env invocationId jid (if truthy pl then tval pl else "\x7b\x7d"), ?_, ?_, rfl, rfl, ?_⟩
  · simp only [dispatchHandler, truthy, tval, Option.getD, hfound]
    simp [hjid, getItem_putItem_self]
  · simp only [dispatchHandler, truthy, tval, Option.getD, hfound]
    simp [hjid, getItem_putItem_self]
  · cases herr : env.execError <;> simp [finalInvOf, herr]

/-- Witness for `dispatch_timestamps_amended` at a concrete run. -/
theorem dispatch_timestamps_amended_witness :
    ("j1" : String) ≠ "" ∧ getItem "j1" stA.jobs = some jobA ∧
    ∃ (job₂ : Job) (inv₂ : Invocation),
      getItem "j1" (dispatchHandler envA "i1" stA ⟨some "j1", none⟩).jobs = some job₂
      ∧ getItem "i1" (dispatchHandler envA "i1" stA ⟨some "j1", none⟩).invocations = some inv₂
      ∧ job₂.lastExecutedAt = some envA.timestamp
      ∧ job₂.updatedAt = envA.timestamp
      ∧ inv₂.completedAt = some envA.endTime :=
  ⟨by decide, by decide,
    dispatch_timestamps_amended envA "i1" "j1" stA none jobA (by decide) (by decide)⟩

/-- C9: dispatching a jobId that is absent from the store returns the 404
response and leaves every piece of state untouched — no invocation row, no
job update, no rule-engine change, and a normal (non-throwing) return. -/
theorem dispatch_missing_job_aborts (env : DispatchEnv) (invocationId jid : String)
    (st : DispatchState) (pl : Option String)
    (hjid : jid ≠ "") (habsent : getItem jid st.jobs = none) :
    dispatchHandler env invocationId st ⟨some jid, pl⟩ =
      ⟨404, st.jobs, st.invocations, st.ruleEngine⟩ := by
  simp only [dispatchHandler, truthy, tval, Option.getD, habsent]
  simp [hjid]

/-- Witness for `dispatch_missing_job_aborts` at a concrete absent id. -/
theorem dispatch_missing_job_aborts_witness :
    ("ghost" : String) ≠ "" ∧ getItem "ghost" stA.jobs = none ∧
    dispatchHandler envA "i1" stA ⟨some "ghost", none⟩ =
      ⟨404, stA.jobs, stA.invocations, stA.ruleEngine⟩ :=
  ⟨by decide, by decide,
    dispatch_missing_job_aborts envA "i1" "ghost" stA none (by decide) (by decide)⟩

/-- C6: for a dispatched `once` job carrying a rule name, when the three
clean-up calls succeed the rule's target, the rule entry and the invoke
permission are all gone afterwards — whatever the execution outcome was —
and the dispatch outcome (status code, jobs table, invocations table) is the
same no matter which clean-up calls fail. -/
theorem dispatch_once_rule_cleanup (env : DispatchEnv) (b₁ b₂ b₃ : Bool)
    (invocationId jid rn : String) (st : DispatchState) (pl : Option String) (job : Job)
    (hjid : jid ≠ "") (hfound : getItem jid st.jobs = some job)
    (htype : job.type = JobType.once) (hrule : job.ruleName = some rn) (hrn : rn ≠ "") :
    (rn ∉ (dispatchHandler { env with rtOk := true, drOk := true, rpOk := true }
        invocationId st ⟨some jid, pl⟩).ruleEngine.rules
      ∧ (rn, "1") ∉ (dispatchHandler { env with rtOk := true, drOk := true, rpOk := true }
        invocationId st ⟨some jid, pl⟩).ruleEngine.targets
      ∧ (rn ++ "-permission") ∉ (dispatchHandler { env with rtOk := true, drOk := true, rpOk := true }
        invocationId st ⟨some jid, pl⟩).ruleEngine.permissions)
    ∧ ((dispatchHandler { env with rtOk := b₁, drOk := b₂, rpOk := b₃ }
          invocationId st ⟨some jid, pl⟩).statusCode
        = (dispatchHandler { env with rtOk := true, drOk := true, rpOk := true }
          invocationId st ⟨some jid, pl⟩).statusCode
      ∧ (dispatchHandler { env with rtOk := b₁, drOk := b₂, rpOk := b₃ }
          invocationId st ⟨some jid, pl⟩).jobs
        = (dispatchHandler { env with rtOk := true, drOk := true, rpOk := true }
          invocationId st ⟨some jid, pl⟩).jobs
      ∧ (dispatchHandler { env with rtOk := b₁, drOk := b₂, rpOk := b₃ }
          invocationId st ⟨some jid, pl⟩).invocations
        = (dispatchHandler { env with rtOk := true, drOk := true, rpOk := true }
          invocationId st ⟨some jid, pl⟩).invocations) := by
  constructor
  · simp only [dispatchHandler, truthy, tval, Option.getD, hfound]
    simp [hjid, htype, hrule, hrn, cleanupOnceRule, removeTargets, deleteRule,
      removePermission, List.mem_filter]
  · simp only [dispatchHandler, truthy, tval, Option.getD, hfound]
    simp [hjid, updatedJobOf, finalInvOf, runningInvOf, newStatusFor]

/-- Witness for `dispatch_once_rule_cleanup` at a concrete `once` job, with
a run whose clean-up oracles all fail in the varied copy. -/
theorem dispatch_once_rule_cleanup_witness :
    ("j2" : String) ≠ "" ∧ getItem "j2" stA.jobs = some jobB
      ∧ jobB.type = JobType.once ∧ jobB.ruleName = some "job-j2" ∧ ("job-j2" : String) ≠ "" ∧
    (("job-j2" : String) ∉ (dispatchHandler { envA with rtOk := true, drOk := true, rpOk := true }
        "i2" stA ⟨some "j2", none⟩).ruleEngine.rules
      ∧ (("job-j2", "1") : String × String) ∉ (dispatchHandler { envA with rtOk := true, drOk := true, rpOk := true }
        "i2" stA ⟨some "j2", none⟩).ruleEngine.targets
      ∧ ("job-j2" ++ "-permission" : String) ∉ (dispatchHandler { envA with rtOk := true, drOk := true, rpOk := true }
        "i2" stA ⟨some "j2", none⟩).ruleEngine.permissions)
    ∧ ((dispatchHandler { envA with rtOk := false, drOk := false, rpOk := false }
          "i2" stA ⟨some "j2", none⟩).statusCode
        = (dispatchHandler { envA with rtOk := true, drOk := true, rpOk := true }
          "i2" stA ⟨some "j2", none⟩).statusCode
      ∧ (dispatchHandler { envA with rtOk := false, drOk := false, rpOk := false }
          "i2" stA ⟨some "j2", none⟩).jobs
        = (dispatchHandler { envA with rtOk := true, drOk := true, rpOk := true }
          "i2" stA ⟨some "j2", none⟩).jobs
      ∧ (dispatchHandler { envA with rtOk := false, drOk := false, rpOk := false }
          "i2" stA ⟨some "j2", none⟩).invocations
        = (dispatchHandler { envA with rtOk := true, drOk := true, rpOk := true }
          "i2" stA ⟨some "j2", none⟩).invocations) :=
  ⟨by decide, by decide, by decide, by decide, by decide,
    dispatch_once_rule_cleanup envA false false false "i2" "j2" "job-j2" stA none jobB
      (by decide) (by decide) (by decide) (by decide) (by decide)⟩

/-- The destructured JSON body of a create-job request
(`createJob.js` line 24). -/
structure CreateBody where
  name : Option String
  description : Option String
  type : Option String
  scheduleExpression : Option String
  executeAt : Option String
  payload : Option String
deriving DecidableEq

/-- Outcome of the `AddPermissionCommand` call: success, a
`ResourceConflictException` (swallowed, line 145), or another error
(rethrown). -/
inductive PermResult
  | ok
  | conflict
  | fail
deriving DecidableEq

/-- Oracles for the side-effecting calls `createJob.js` makes after the
DynamoDB write, in program order. -/
structure RegEnv where
  invokeOk : Bool
  putRuleOk : Bool
  permResult : PermResult
  putTargetsOk : Bool
deriving DecidableEq

/-- One side-effecting command issued by `createJob.js`, recorded in issue
order. -/
inductive CreateEffect
  | putJob (job : Job)
  | invokeExecutor (jobId : String)
  | putRule (name : String)
  | addPermission (sid : String)
  | putTargets (rule : String)
deriving DecidableEq

/-- Effects addressed to the Timer/Rule Engine (EventBridge / the Lambda
permission that lets it invoke the executor). -/
def isEngineEffect : CreateEffect → Bool
  | CreateEffect.putRule _ => true
  | CreateEffect.addPermission _ => true
  | CreateEffect.putTargets _ => true
  | _ => false

/-- The observable outcome of `createJob`: response status code, final jobs
table, and the ordered trace of issued side effects. -/
structure CreateResult where
  statusCode : Nat
  jobs : Table Job
  trace : List CreateEffect
deriving DecidableEq

/-- `executeDate <= new Date()` (line 69) for a parsed `executeAt`:
true when it parses to a time at or before `now`. -/
def notFutureB (parseDate : String → Option Int) (now : Int) (s : String) : Bool :=
  match parseDate s with
  | none => false
  | some t => decide (t ≤ now)

/-- The job record `createJob.js` builds and persists (lines 81–93). Fields
`scheduleExpression` and `executeAt` are stored verbatim from the request
(`x || null`), independent of the job type; `ruleName` is not part of the
persisted record (it is set on the response object only after the
`PutCommand` has completed). -/
def mkJobRecord (b : CreateBody) (newJobId : String) (timestamp : Nat) : Job :=
  { jobId := newJobId
    name := tval b.name
    description := tval b.description
    type := if tval b.type == "immediate" then JobType.immediate
            else if tval b.type == "once" then JobType.once else JobType.cron
    scheduleExpression := orNull b.scheduleExpression
    executeAt := orNull b.executeAt
    payload := if truthy b.payload then tval b.payload else "\x7b\x7d"
    status := if tval b.type == "immediate" then JobStatus.executing else JobStatus.scheduled
    createdAt := timestamp
    updatedAt := timestamp
    invocationCount := 0
    lastExecutedAt := none
    ruleName := none }

/-- The shared EventBridge registration sequence of the `once` and `cron`
branches (lines 126–159 and 170–203): `PutRule`, `AddPermission` (with a
swallowed conflict), `PutTargets`; an unhandled failure lands in the
catch-all and yields the 500 response, with the job row left persisted. -/
def registerRule (reg : RegEnv) (ruleName : String) (jobs : Table Job)
    (tr : List CreateEffect) : CreateResult :=
  if reg.putRuleOk then
    let tr₁ := tr ++ [CreateEffect.putRule ruleName]
    match reg.permResult with
    | PermResult.fail =>
      ⟨500, jobs, tr₁ ++ [CreateEffect.addPermission (ruleName ++ "-permission")]⟩
    | _ =>
      let tr₂ := tr₁ ++ [CreateEffect.addPermission (ruleName ++ "-permission")]
      if reg.putTargetsOk then ⟨201, jobs, tr₂ ++ [CreateEffect.putTargets ruleName]⟩
      else ⟨500, jobs, tr₂ ++ [CreateEffect.putTargets ruleName]⟩
  else ⟨500, jobs, tr ++ [CreateEffect.putRule ruleName]⟩

/-- The body of `createJob.js` after a successful `JSON.parse`: the
validation chain (lines 27–76), the DynamoDB `PutCommand` (line 96), then
the per-type side effects. -/
def createJobCore (parseDate : String → Option Int) (now : Int) (timestamp : Nat)
    (newJobId : String) (reg : RegEnv) (jobs : Table Job) (b : CreateBody) : CreateResult :=
  if !(truthy b.name && truthy b.type) then ⟨400, jobs, []⟩
  else if !(tval b.type == "immediate" || tval b.type == "once" || tval b.type == "cron") then
    ⟨400, jobs, []⟩
  else if tval b.type == "once" && !truthy b.executeAt then ⟨400, jobs, []⟩
  else if tval b.type == "cron" && !truthy b.scheduleExpression then ⟨400, jobs, []⟩
  else if tval b.type == "once" && (parseDate (tval b.executeAt)).isNone then ⟨400, jobs, []⟩
  else if tval b.type == "once" && notFutureB parseDate now (tval b.executeAt) then
    ⟨400, jobs, []⟩
  else
    let job := mkJobRecord b newJobId timestamp
    let jobs₁ := putItem newJobId job jobs
    let tr₀ := [CreateEffect.putJob job]
    match job.type with
    | JobType.immediate =>
      if reg.invokeOk then ⟨201, jobs₁, tr₀ ++ [CreateEffect.invokeExecutor newJobId]⟩
      else ⟨500, jobs₁, tr₀ ++ [CreateEffect.invokeExecutor newJobId]⟩
    | JobType.once => registerRule reg ("job-" ++ newJobId) jobs₁ tr₀
    | JobType.cron => registerRule reg ("job-" ++ newJobId) jobs₁ tr₀

/-- The full `createJob` handler: `JSON.parse(event.body)` (line 23) throws
into the catch-all (lines 218–229) when the body is missing or is not valid
JSON, producing the generic 500 response with nothing written. -/
def createJobHandler (parseJson : String → Option CreateBody)
    (parseDate : String → Option Int) (now : Int) (timestamp : Nat) (newJobId : String)
    (reg : RegEnv) (jobs : Table Job) (rawBody : Option String) : CreateResult :=
  match rawBody with
  | none => ⟨500, jobs, []⟩
  | some s =>
    match parseJson s with
    | none => ⟨500, jobs, []⟩
    | some b => createJobCore parseDate now timestamp newJobId reg jobs b

/-- C3: a create request of type `once` whose `executeAt` is missing/empty,
unparsable, or parses to a time at or before `now` is rejected with the 400
validation response, the jobs table is untouched, and no side effect at all
is issued (validation precedes persistence). -/
theorem createJob_once_invalid_executeAt (parseDate : String → Option Int)
    (now : Int) (timestamp : Nat) (newJobId : String) (reg : RegEnv)
    (jobs : Table Job) (b : CreateBody)
    (htype : tval b.type = "once")
    (hbad : truthy b.executeAt = false
      ∨ parseDate (tval b.executeAt) = none
      ∨ ∃ t : Int, parseDate (tval b.executeAt) = some t ∧ t ≤ now) :
    createJobCore parseDate now timestamp newJobId reg jobs b = ⟨400, jobs, []⟩ := by
  unfold createJobCore
  split_ifs with h₁ h₂ h₃ h₄ h₅ h₆ h₇
  · rfl
  · rfl
  · rfl
  · rfl
  · rfl
  · rfl
  all_goals
    exfalso
    rw [htype] at h₃ h₅ h₆
    simp at h₃ h₅ h₆
    rcases hbad with hb | hb | ⟨t, ht, hle⟩
    · rw [hb] at h₃
      exact Bool.false_ne_true h₃
    · exact h₅ hb
    · unfold notFutureB at h₆
      rw [ht] at h₆
      simp at h₆
      omega

/-- Witness for `createJob_once_invalid_executeAt`: a `once` request whose
`executeAt` parses to time 50 with the clock at 100. -/
theorem createJob_once_invalid_executeAt_witness :
    tval (some "once") = "once"
    ∧ ((fun _ => some 50) : String → Option Int) "2020-01-01" = some 50 ∧ (50 : Int) ≤ 100
    ∧ createJobCore (fun _ => some 50) 100 7 "n1"
        ⟨true, true, PermResult.ok, true⟩ []
        ⟨some "late", none, some "once", none, some "2020-01-01", none⟩
      = ⟨400, [], []⟩ :=
  ⟨rfl, rfl, by decide,
    createJob_once_invalid_executeAt (fun _ => some 50) 100 7 "n1"
      ⟨true, true, PermResult.ok, true⟩ []
      ⟨some "late", none, some "once", none, some "2020-01-01", none⟩
      rfl (Or.inr (Or.inr ⟨50, rfl, by decide⟩))⟩

/-- C10: when `event.body` is absent or fails to parse as JSON, the handler
falls into the catch-all and answers with the generic 500 response; no job
row is written and no side effect is issued. -/
theorem createJob_bad_body_500 (parseJson : String → Option CreateBody)
    (parseDate : String → Option Int) (now : Int) (timestamp : Nat)
    (newJobId : String) (reg : RegEnv) (jobs : Table Job) (rawBody : Option String)
    (hbad : rawBody = none ∨ ∃ s, rawBody = some s ∧ parseJson s = none) :
    createJobHandler parseJson parseDate now timestamp newJobId reg jobs rawBody
      = ⟨500, jobs, []⟩ := by
  rcases hbad with h | ⟨s, hs, hp⟩
  · simp [createJobHandler, h]
  · simp [createJobHandler, hs, hp]

/-- Witness for `createJob_bad_body_500` with a body that is not valid JSON. -/
theorem createJob_bad_body_500_witness :
    ((fun _ => none) : String → Option CreateBody) "\x7boops" = none
    ∧ createJobHandler (fun _ => none) (fun _ => some 0) 100 7 "n1"
        ⟨true, true, PermResult.ok, true⟩ [] (some "\x7boops")
      = ⟨500, [], []⟩ :=
  ⟨rfl,
    createJob_bad_body_500 (fun _ => none) (fun _ => some 0) 100 7 "n1"
      ⟨true, true, PermResult.ok, true⟩ [] (some "\x7boops")
      (Or.inr ⟨"\x7boops", rfl, rfl⟩)⟩

/-- The engine commands the registration sequence attempts, as a function of
the oracles: `PutRule` always; on its success `AddPermission`; unless the
permission call failed hard, `PutTargets`. -/
def registerRuleSuffix (reg : RegEnv) (ruleName : String) : List CreateEffect :=
  if reg.putRuleOk then
    match reg.permResult with
    | PermResult.fail =>
      [CreateEffect.putRule ruleName, CreateEffect.addPermission (ruleName ++ "-permission")]
    | _ =>
      [CreateEffect.putRule ruleName, CreateEffect.addPermission (ruleName ++ "-permission"),
        CreateEffect.putTargets ruleName]
  else [CreateEffect.putRule ruleName]

/-- The status code the registration sequence ends with: 201 only when every
call succeeded (a permission conflict being tolerated). -/
def registerRuleCode (reg : RegEnv) : Nat :=
  if reg.putRuleOk then
    match reg.permResult with
    | PermResult.fail => 500
    | _ => if reg.putTargetsOk then 201 else 500
  else 500

theorem registerRule_eq (reg : RegEnv) (rn : String) (jobs : Table Job)
    (tr : List CreateEffect) :
    registerRule reg rn jobs tr = ⟨registerRuleCode reg, jobs, tr ++ registerRuleSuffix reg rn⟩ := by
  unfold registerRule registerRuleCode registerRuleSuffix
  split_ifs with h₁ h₂ <;> cases hp : reg.permResult <;> simp

theorem mem_registerRuleSuffix_engine (reg : RegEnv) (rn : String) :
    ∀ e ∈ registerRuleSuffix reg rn, isEngineEffect e = true := by
  intro e he
  unfold registerRuleSuffix at he
  split_ifs at he
  · cases hp : reg.permResult
    · rw [hp] at he
      simp only [List.mem_cons, List.not_mem_nil, or_false] at he
      obtain rfl | rfl | rfl := he <;> rfl
    · rw [hp] at he
      simp only [List.mem_cons, List.not_mem_nil, or_false] at he
      obtain rfl | rfl | rfl := he <;> rfl
    · rw [hp] at he
      simp only [List.mem_cons, List.not_mem_nil, or_false] at he
      obtain rfl | rfl := he <;> rfl
  · simp only [List.mem_cons, List.not_mem_nil, or_false] at he
    obtain rfl := he
    rfl

theorem createJob_trace_starts_with_put (parseDate : String → Option Int) (now : Int)
    (timestamp : Nat) (newJobId : String) (reg : RegEnv) (jobs : Table Job) (b : CreateBody) :
    (createJobCore parseDate now timestamp newJobId reg jobs b).trace = []
    ∨ (∃ rest, (createJobCore parseDate now timestamp newJobId reg jobs b).trace
          = CreateEffect.putJob (mkJobRecord b newJobId timestamp) :: rest
        ∧ getItem newJobId (createJobCore parseDate now timestamp newJobId reg jobs b).jobs
          = some (mkJobRecord b newJobId timestamp)) := by
  simp only [createJobCore]
  split_ifs with h₁ h₂ h₃ h₄ h₅ h₆ h₇
  · exact Or.inl rfl
  · exact Or.inl rfl
  · exact Or.inl rfl
  · exact Or.inl rfl
  · exact Or.inl rfl
  · exact Or.inl rfl
  all_goals
    right
    cases hty : (mkJobRecord b newJobId timestamp).type <;>
      simp only [hty, registerRule_eq] <;>
      exact ⟨_, rfl, getItem_putItem_self _ _ _⟩

/-- C8: whenever `createJob` issues any Timer/Rule-Engine command (rule
creation, permission grant, target attachment), the trace starts with the
DynamoDB write of the job record, and that record is in the final jobs
table — so a failure anywhere in registration still leaves the job
persisted. -/
theorem createJob_write_then_register (parseDate : String → Option Int) (now : Int)
    (timestamp : Nat) (newJobId : String) (reg : RegEnv) (jobs : Table Job) (b : CreateBody) :
    ∀ e ∈ (createJobCore parseDate now timestamp newJobId reg jobs b).trace,
      isEngineEffect e = true →
      ∃ rest, (createJobCore parseDate now timestamp newJobId reg jobs b).trace
            = CreateEffect.putJob (mkJobRecord b newJobId timestamp) :: rest
        ∧ getItem newJobId (createJobCore parseDate now timestamp newJobId reg jobs b).jobs
            = some (mkJobRecord b newJobId timestamp) := by
  intro e he _
  rcases createJob_trace_starts_with_put parseDate now timestamp newJobId reg jobs b with
    h | ⟨rest, hr, hj⟩
  · rw [h] at he
    cases he
  · exact ⟨rest, hr, hj⟩

/-- A concrete valid cron request body. -/
def bCron : CreateBody :=
  ⟨some "daily-report", none, some "cron", some "rate(15 minutes)", none, none⟩

/-- Witness for `createJob_write_then_register`: a cron creation whose
`PutRule` call fails; the trace still begins with the job write and the job
row is persisted. -/
theorem createJob_write_then_register_witness :
    CreateEffect.putRule "job-n1"
        ∈ (createJobCore (fun _ => some 0) 100 7 "n1"
            ⟨true, false, PermResult.ok, true⟩ [] bCron).trace
    ∧ isEngineEffect (CreateEffect.putRule "job-n1") = true
    ∧ ∃ rest, (createJobCore (fun _ => some 0) 100 7 "n1"
            ⟨true, false, PermResult.ok, true⟩ [] bCron).trace
          = CreateEffect.putJob (mkJobRecord bCron "n1" 7) :: rest
        ∧ getItem "n1" (createJobCore (fun _ => some 0) 100 7 "n1"
            ⟨true, false, PermResult.ok, true⟩ [] bCron).jobs
          = some (mkJobRecord bCron "n1" 7) :=
  ⟨by decide, rfl,
    createJob_write_then_register (fun _ => some 0) 100 7 "n1"
      ⟨true, false, PermResult.ok, true⟩ [] bCron
      (CreateEffect.putRule "job-n1") (by decide) rfl⟩

theorem orNull_isSome (o : Option String) (h : truthy o = true) :
    (orNull o).isSome = true := by
  cases o
  · simp [truthy] at h
  · simp [orNull, h]

theorem mkJobRecord_type_cron (b : CreateBody) (nid : String) (ts : Nat)
    (h₂ : tval b.type = "immediate" ∨ tval b.type = "once" ∨ tval b.type = "cron")
    (h : (mkJobRecord b nid ts).type = JobType.cron) : tval b.type = "cron" := by
  simp only [mkJobRecord] at h
  split_ifs at h with hi ho
  simp at hi ho
  rcases h₂ with hc | hc | hc
  · exact absurd hc hi
  · exact absurd hc ho
  · exact hc

theorem mkJobRecord_type_once (b : CreateBody) (nid : String) (ts : Nat)
    (h : (mkJobRecord b nid ts).type = JobType.once) : tval b.type = "once" := by
  simp only [mkJobRecord] at h
  split_ifs at h with hi ho
  simpa using ho

/-- C4 is false on the code: `createJob.js` stores `scheduleExpression` and
`executeAt` verbatim from the request (`x || null`, lines 86–87) with no
type-dependent filtering, so an `immediate` job created with a
`scheduleExpression` in the body persists it, breaking the claimed
"set iff type = Cron" equivalence. -/
theorem createJob_fields_iff_counterexample :
    CreateEffect.putJob (mkJobRecord ⟨some "imm-job", none, some "immediate",
          some "rate(5 minutes)", none, none⟩ "n2" 7)
        ∈ (createJobCore (fun _ => some 0) 100 7 "n2" ⟨true, true, PermResult.ok, true⟩ []
            ⟨some "imm-job", none, some "immediate", some "rate(5 minutes)", none, none⟩).trace
    ∧ (mkJobRecord ⟨some "imm-job", none, some "immediate",
          some "rate(5 minutes)", none, none⟩ "n2" 7).type = JobType.immediate
    ∧ (mkJobRecord ⟨some "imm-job", none, some "immediate",
          some "rate(5 minutes)", none, none⟩ "n2" 7).scheduleExpression
        = some "rate(5 minutes)"
    ∧ ¬((mkJobRecord ⟨some "imm-job", none, some "immediate",
          some "rate(5 minutes)", none, none⟩ "n2" 7).scheduleExpression.isSome = true
        ↔ (mkJobRecord ⟨some "imm-job", none, some "immediate",
          some "rate(5 minutes)", none, none⟩ "n2" 7).type = JobType.cron) := by
  refine ⟨?_, ?_, ?_, ?_⟩ <;> decide

/-- C4 amended: every job record written by `createJob` has
`scheduleExpression` set if its type is `cron` and `executeAt` set if its
type is `once`; the converses do not hold, because request-supplied fields
are stored verbatim whatever the type. -/
theorem createJob_fields_forward (parseDate : String → Option Int) (now : Int)
    (timestamp : Nat) (newJobId : String) (reg : RegEnv) (jobs : Table Job) (b : CreateBody) :
    ∀ j : Job,
      CreateEffect.putJob j ∈ (createJobCore parseDate now timestamp newJobId reg jobs b).trace →
      (j.type = JobType.cron → j.scheduleExpression.isSome = true)
      ∧ (j.type = JobType.once → j.executeAt.isSome = true) := by
  intro j hj
  simp only [createJobCore] at hj
  split_ifs at hj with h₁ h₂ h₃ h₄ h₅ h₆ h₇
  · cases hj
  · cases hj
  · cases hj
  · cases hj
  · cases hj
  · cases hj
  all_goals
    have hjeq : j = mkJobRecord b newJobId timestamp := by
      cases hty : (mkJobRecord b newJobId timestamp).type <;>
        simp only [hty, registerRule_eq] at hj <;>
        rcases List.mem_append.mp hj with h | h <;>
        first
          | (simp only [List.mem_cons, List.not_mem_nil, or_false,
              CreateEffect.putJob.injEq] at h
             exact h)
          | (have he := mem_registerRuleSuffix_engine _ _ _ h
             simp [isEngineEffect] at he)
          | simp at h
  all_goals
    subst hjeq
    constructor
  case _ =>
    intro hc
    have hcr := mkJobRecord_type_cron b newJobId timestamp (by
        have h := h₂
        simp at h
        tauto) hc
    rw [hcr] at h₄
    simp at h₄
    simp only [mkJobRecord]
    exact orNull_isSome _ h₄
  case _ =>
    intro ho
    have hon := mkJobRecord_type_once b newJobId timestamp ho
    rw [hon] at h₃
    simp at h₃
    simp only [mkJobRecord]
    exact orNull_isSome _ h₃
  case _ =>
    intro hc
    have hcr := mkJobRecord_type_cron b newJobId timestamp (by
        have h := h₂
        simp at h
        tauto) hc
    rw [hcr] at h₄
    simp at h₄
    simp only [mkJobRecord]
    exact orNull_isSome _ h₄
  case _ =>
    intro ho
    have hon := mkJobRecord_type_once b newJobId timestamp ho
    rw [hon] at h₃
    simp at h₃
    simp only [mkJobRecord]
    exact orNull_isSome _ h₃

/-- Witness for `createJob_fields_forward` at a concrete cron creation. -/
theorem createJob_fields_forward_witness :
    CreateEffect.putJob (mkJobRecord bCron "n3" 7)
        ∈ (createJobCore (fun _ => some 0) 100 7 "n3"
            ⟨true, true, PermResult.ok, true⟩ [] bCron).trace
    ∧ ((mkJobRecord bCron "n3" 7).type = JobType.cron →
        (mkJobRecord bCron "n3" 7).scheduleExpression.isSome = true)
    ∧ ((mkJobRecord bCron "n3" 7).type = JobType.once →
        (mkJobRecord bCron "n3" 7).executeAt.isSome = true) :=
  ⟨by decide,
    (createJob_fields_forward (fun _ => some 0) 100 7 "n3"
      ⟨true, true, PermResult.ok, true⟩ [] bCron (mkJobRecord bCron "n3" 7) (by decide)).1,
    (createJob_fields_forward (fun _ => some 0) 100 7 "n3"
      ⟨true, true, PermResult.ok, true⟩ [] bCron (mkJobRecord bCron "n3" 7) (by decide)).2⟩

/-- Oracles for the EventBridge/Lambda calls `deleteJob.js` makes while
tearing down a rule, in program order: `ListTargetsByRule`,
`RemoveTargets`, `DeleteRule`, `RemovePermission`. -/
structure DeleteEnv where
  ltOk : Bool
  rtOk : Bool
  drOk : Bool
  rpOk : Bool
deriving DecidableEq

/-- The observable outcome of `deleteJob`. -/
structure DeleteResult where
  statusCode : Nat
  jobs : Table Job
  ruleEngine : RuleEngine
deriving DecidableEq

/-- Rule teardown in `deleteJob.js` (lines 52–93): list the rule's targets,
remove them when any exist, delete the rule, then best-effort remove the
Lambda permission (inner `try`); every failure is swallowed by the outer
`catch`, a failing call mutating nothing and skipping the rest of the
outer `try`. -/
def deleteRuleCleanup (env : DeleteEnv) (rn : String) (re : RuleEngine) : RuleEngine :=
  if env.ltOk then
    let ids := (re.targets.filter (fun p => p.1 == rn)).map Prod.snd
    if ids.isEmpty then
      if env.drOk then
        let re₂ := deleteRule rn re
        if env.rpOk then removePermission (rn ++ "-permission") re₂ else re₂
      else re
    else
      if env.rtOk then
        let re₁ := removeTargets rn ids re
        if env.drOk then
          let re₂ := deleteRule rn re₁
          if env.rpOk then removePermission (rn ++ "-permission") re₂ else re₂
        else re₁
      else re
  else re

/-- The `deleteJob.js` handler: 400 without a path id, 404 (and no
mutation) when the job is absent, otherwise best-effort rule teardown for
`once`/`cron` jobs carrying a `ruleName`, then the DynamoDB
`DeleteCommand` and the 200 response. -/
def deleteJobHandler (env : DeleteEnv) (jobs : Table Job) (re : RuleEngine)
    (jobIdParam : Option String) : DeleteResult :=
  if truthy jobIdParam then
    let jid := tval jobIdParam
    match getItem jid jobs with
    | none => ⟨404, jobs, re⟩
    | some job =>
      let re₁ :=
        if truthy job.ruleName ∧ (job.type = JobType.once ∨ job.type = JobType.cron) then
          deleteRuleCleanup env (tval job.ruleName) re
        else re
      ⟨200, eraseItem jid jobs, re₁⟩
  else ⟨400, jobs, re⟩

/-- C7: deleting a job id that is not in the store answers 404 and mutates
nothing; deleting a present id answers 200 and removes the job record. -/
theorem deleteJob_spec (env : DeleteEnv) (jobs : Table Job) (re : RuleEngine)
    (jid : String) (hjid : jid ≠ "") :
    (getItem jid jobs = none →
      deleteJobHandler env jobs re (some jid) = ⟨404, jobs, re⟩)
    ∧ (∀ job : Job, getItem jid jobs = some job →
        (deleteJobHandler env jobs re (some jid)).statusCode = 200
        ∧ getItem jid (deleteJobHandler env jobs re (some jid)).jobs = none) := by
  constructor
  · intro habsent
    simp only [deleteJobHandler, truthy, tval, Option.getD, habsent]
    simp [hjid]
  · intro job hfound
    simp only [deleteJobHandler, truthy, tval, Option.getD, hfound]
    simp [hjid, getItem_eraseItem_self]

/-- Witness for `deleteJob_spec`: a store holding only `jobA`, probing the
absent id `"ghost"` and the present id `"j1"`. -/
theorem deleteJob_spec_witness :
    ("ghost" : String) ≠ "" ∧ ("j1" : String) ≠ ""
    ∧ getItem "ghost" [("j1", jobA)] = none
    ∧ getItem "j1" [("j1", jobA)] = some jobA
    ∧ deleteJobHandler ⟨true, true, true, true⟩ [("j1", jobA)]
        ⟨["job-j1"], [("job-j1", "1")], ["job-j1-permission"]⟩ (some "ghost")
      = ⟨404, [("j1", jobA)], ⟨["job-j1"], [("job-j1", "1")], ["job-j1-permission"]⟩⟩
    ∧ (deleteJobHandler ⟨true, true, true, true⟩ [("j1", jobA)]
        ⟨["job-j1"], [("job-j1", "1")], ["job-j1-permission"]⟩ (some "j1")).statusCode = 200
    ∧ getItem "j1" (deleteJobHandler ⟨true, true, true, true⟩ [("j1", jobA)]
        ⟨["job-j1"], [("job-j1", "1")], ["job-j1-permission"]⟩ (some "j1")).jobs = none :=
  ⟨by decide, by decide, by decide, by decide,
    (deleteJob_spec ⟨true, true, true, true⟩ [("j1", jobA)]
      ⟨["job-j1"], [("job-j1", "1")], ["job-j1-permission"]⟩ "ghost" (by decide)).1 (by decide),
    ((deleteJob_spec ⟨true, true, true, true⟩ [("j1", jobA)]
      ⟨["job-j1"], [("job-j1", "1")], ["job-j1-permission"]⟩ "j1" (by decide)).2 jobA (by decide)).1,
    ((deleteJob_spec ⟨true, true, true, true⟩ [("j1", jobA)]
      ⟨["job-j1"], [("job-j1", "1")], ["job-j1-permission"]⟩ "j1" (by decide)).2 jobA (by decide)).2⟩

/-- JS `Math.round`: the integer nearest to the argument, halves rounding
towards positive infinity. -/
def jsRound (q : ℚ) : ℤ := ⌊q + 1 / 2⌋

/-- JS `Number.prototype.toFixed(2)` read back as an exact rational: the
multiple of 1/100 nearest to the argument, ties picking the larger. -/
def toFixed2 (q : ℚ) : ℚ := (⌊q * 100 + 1 / 2⌋ : ℚ) / 100

/-- `invocations.filter(inv => inv.status === 'completed')` (line 310). -/
def completedInvocationsOf (invs : List Invocation) : List Invocation :=
  invs.filter (fun inv => inv.status == InvStatus.completed)

/-- `invocations.filter(inv => inv.status === 'failed')` (line 311). -/
def failedInvocationsOf (invs : List Invocation) : List Invocation :=
  invs.filter (fun inv => inv.status == InvStatus.failed)

/-- `invocations.filter(inv => inv.status === 'running')` (line 312). -/
def runningInvocationsOf (invs : List Invocation) : List Invocation :=
  invs.filter (fun inv => inv.status == InvStatus.running)

/-- The `statistics` object `getJob` returns. -/
structure JobStatistics where
  totalInvocations : Nat
  completed : Nat
  failed : Nat
  running : Nat
  averageDuration : Int
  successRate : ℚ
deriving DecidableEq

/-- The statistics computation of the `getJob` handler (lines 309–327 of
the built `createJob.js` bundle): counts by status filter, average duration
reduced over completed invocations (`inv.duration || 0`) and
`Math.round`ed, success rate `(completed/total)*100` to two decimals, with
the zero-denominator guards of the source's ternaries. -/
def statisticsOf (invs : List Invocation) : JobStatistics :=
  let c := completedInvocationsOf invs
  let avg : ℚ :=
    if 0 < c.length then
      ((c.foldl (fun sum inv => sum + inv.duration.getD 0) 0 : Nat) : ℚ) / c.length
    else 0
  { totalInvocations := invs.length
    completed := c.length
    failed := (failedInvocationsOf invs).length
    running := (runningInvocationsOf invs).length
    averageDuration := jsRound avg
    successRate :=
      if 0 < invs.length then toFixed2 (((c.length : ℚ) / invs.length) * 100) else 0 }

theorem statusCounts_partition (invs : List Invocation) :
    (completedInvocationsOf invs).length + (failedInvocationsOf invs).length
      + (runningInvocationsOf invs).length = invs.length := by
  induction invs with
  | nil => rfl
  | cons i t ih =>
    cases hs : i.status <;>
      simp [completedInvocationsOf, failedInvocationsOf, runningInvocationsOf,
        List.filter_cons, hs] at ih ⊢ <;>
      omega

theorem foldl_add_durations (l : List Invocation) (n : Nat) :
    l.foldl (fun sum inv => sum + inv.duration.getD 0) n
      = n + (l.map (fun inv => inv.duration.getD 0)).sum := by
  induction l generalizing n with
  | nil => simp
  | cons i t ih =>
    simp only [List.foldl, List.map, List.sum_cons, ih]
    omega

/-- C5: over any fetched invocation list, the completed/failed/running
counts partition the list; `averageDuration` is the `Math.round`ed mean of
the completed invocations' durations (0 when none are completed); and
`successRate` is `100·completed/total` to two decimals (0 when the list is
empty). -/
theorem statistics_correct (invs : List Invocation) :
    (statisticsOf invs).completed + (statisticsOf invs).failed + (statisticsOf invs).running
        = (statisticsOf invs).totalInvocations
    ∧ (statisticsOf invs).averageDuration =
        (if (completedInvocationsOf invs).length = 0 then 0
         else jsRound
            ((((completedInvocationsOf invs).map (fun inv => inv.duration.getD 0)).sum : ℚ)
              / (completedInvocationsOf invs).length))
    ∧ (statisticsOf invs).successRate =
        (if invs.length = 0 then 0
         else toFixed2 (100 * (completedInvocationsOf invs).length / invs.length)) := by
  refine ⟨?_, ?_, ?_⟩
  · simpa [statisticsOf] using statusCounts_partition invs
  · by_cases hc : (completedInvocationsOf invs).length = 0
    · simp [statisticsOf, hc, jsRound]
      norm_num
    · have hc' : 0 < (completedInvocationsOf invs).length := Nat.pos_of_ne_zero hc
      simp [statisticsOf, hc, hc', foldl_add_durations, Function.comp_def]
  · by_cases hn : invs.length = 0
    · simp [statisticsOf, hn]
    · have hn' : 0 < invs.length := Nat.pos_of_ne_zero hn
      simp [statisticsOf, hn, hn']
      congr 1
      ring
